import Mathlib

/-!
Shallow embedding of the core of the ai-chat-orchestrator client:
the conversation state store (Redux slice in `conversationSlice.ts`),
the websocket transport (`websocket.ts`) and the turn-orchestration
controls component (`ConversationControls.tsx`).

Modelling conventions:
* JS strings are Lean `String`; `Date.now()` is an explicit `now : Nat`
  argument supplied by the environment at each call.
* `uuidv4()` is modelled as a deterministic fresh-id generator: message
  ids are `Nat` drawn from a counter threaded by the driver functions;
  the only property of uuids the code relies on is freshness.
* The Redux `conversationStatus` object map is modelled as a total
  function `String → Option StatusEntry`.
* `Array.prototype.findIndex` is modelled by `findIndexP`, and the JS
  idiom "findIndex then assign at that index" by `setFirstMatch`
  (mutate the first matching element, no-op when none matches).
-/

namespace Orchestrator

/-- Sender kind of a message (`Message.senderType` in `types/index.ts`). -/
inductive SenderType : Type where
  | user
  | agent
  | system
deriving DecidableEq

/-- Turn status of a conversation (`conversationStatus[...].status`). -/
inductive ConvStatus : Type where
  | idle
  | generating
  | paused
  | stopped
deriving DecidableEq

/-- `Message.metadata` from `types/index.ts`; `none` fields are absent keys. -/
structure MessageMetadata : Type where
  thinking : Option String := none
  modelCallDuration : Option Nat := none
  modelTokensUsed : Option Nat := none
  error : Option String := none
  isGenerating : Option Bool := none
deriving DecidableEq

/-- `Message` from `types/index.ts`.  The uuid string id is modelled as a
`Nat` drawn from a fresh counter. -/
structure Message : Type where
  id : Nat
  conversationId : String
  senderId : String
  senderType : SenderType
  content : String
  timestamp : Nat
  replyToId : Option Nat := none
  metadata : Option MessageMetadata := none
deriving DecidableEq

/-- `Conversation` from `types/index.ts`.  `branches` is the optional
object map from branch id to the branch conversation, modelled as an
association list, hence the nested inductive. -/
inductive Conversation : Type where
  | mk (id : String) (title : String) (created : Nat) (updated : Nat)
      (participants : List String) (messages : List Message)
      (branches : Option (List (String × Conversation)))
      (parentId : Option String) (isActive : Bool) : Conversation

def Conversation.id : Conversation → String
  | .mk i _ _ _ _ _ _ _ _ => i

def Conversation.title : Conversation → String
  | .mk _ t _ _ _ _ _ _ _ => t

def Conversation.created : Conversation → Nat
  | .mk _ _ c _ _ _ _ _ _ => c

def Conversation.updated : Conversation → Nat
  | .mk _ _ _ u _ _ _ _ _ => u

def Conversation.participants : Conversation → List String
  | .mk _ _ _ _ p _ _ _ _ => p

def Conversation.messages : Conversation → List Message
  | .mk _ _ _ _ _ m _ _ _ => m

def Conversation.branches : Conversation → Option (List (String × Conversation))
  | .mk _ _ _ _ _ _ b _ _ => b

def Conversation.parentId : Conversation → Option String
  | .mk _ _ _ _ _ _ _ p _ => p

def Conversation.isActive : Conversation → Bool
  | .mk _ _ _ _ _ _ _ _ a => a

/-- Replace the message list (models `conversation.messages = ...`). -/
def Conversation.setMessages : Conversation → List Message → Conversation
  | .mk i t c u p _ b pid a, ms => .mk i t c u p ms b pid a

/-- Replace the `updated` timestamp (models `conversation.updated = Date.now()`). -/
def Conversation.setUpdated : Conversation → Nat → Conversation
  | .mk i t c _ p ms b pid a, u => .mk i t c u p ms b pid a

/-- Replace the branches map (models `conversation.branches = ...`). -/
def Conversation.setBranches : Conversation → Option (List (String × Conversation)) → Conversation
  | .mk i t c u p ms _ pid a, b => .mk i t c u p ms b pid a

/-- One entry of the `conversationStatus` map in `conversationSlice.ts`. -/
structure StatusEntry : Type where
  status : ConvStatus
  currentSpeakerId : Option String := none
  lastMessageId : Option Nat := none
deriving DecidableEq

/-- The `ConversationState` of `conversationSlice.ts`.  The
`conversationStatus` object map is a total function to `Option`. -/
structure ConversationState : Type where
  conversations : List Conversation
  activeConversationId : Option String
  conversationStatus : String → Option StatusEntry
  isLoading : Bool
  error : Option String

/-- JS `Array.prototype.findIndex` (first index satisfying the predicate). -/
def findIndexP {α : Type} (p : α → Bool) : List α → Option Nat
  | [] => none
  | x :: xs => if p x then some 0 else (findIndexP p xs).map (· + 1)

/-- The JS idiom `i = arr.findIndex(p); if (i !== -1) arr[i] = f(arr[i])`:
mutate the first matching element, identity when nothing matches. -/
def setFirstMatch {α : Type} (p : α → Bool) (f : α → α) : List α → List α
  | [] => []
  | x :: xs => if p x then f x :: xs else x :: setFirstMatch p f xs

/-- Payload of the `addMessage` action: `Omit<Message, 'id' | 'timestamp'>`. -/
structure AddMessagePayload : Type where
  conversationId : String
  senderId : String
  senderType : SenderType
  content : String
  replyToId : Option Nat := none
  metadata : Option MessageMetadata := none
deriving DecidableEq

/-- The fresh `Message` object built inside `addMessage`:
`{ ...action.payload, id: uuidv4(), timestamp: Date.now() }`. -/
def mkNewMessage (p : AddMessagePayload) (freshId : Nat) (now : Nat) : Message :=
  { id := freshId
    conversationId := p.conversationId
    senderId := p.senderId
    senderType := p.senderType
    content := p.content
    timestamp := now
    replyToId := p.replyToId
    metadata := p.metadata }

/-- The `addMessage` reducer of `conversationSlice.ts`.  `freshId` models
the `uuidv4()` call and `now` the `Date.now()` calls (both made inside the
`conversationIndex !== -1` branch). -/
def addMessage (s : ConversationState) (p : AddMessagePayload) (freshId now : Nat) :
    ConversationState :=
  if s.conversations.any (fun c => c.id == p.conversationId) then
    let newMessage := mkNewMessage p freshId now
    let convs := setFirstMatch (fun c => c.id == p.conversationId)
      (fun c => (c.setMessages (c.messages ++ [newMessage])).setUpdated now)
      s.conversations
    let s1 := { s with conversations := convs }
    if p.senderType = SenderType.user then
      { s1 with conversationStatus := fun k =>
          if k = p.conversationId then
            some { status := ConvStatus.idle, currentSpeakerId := none,
                   lastMessageId := some freshId }
          else s.conversationStatus k }
    else s1
  else s

/-- Payload of the `updateMessage` action:
`Partial<Message> & { id; conversationId }`.  The only optional fields the
callers (`websocket.ts`) ever pass are `content` and `metadata`, so the
embedding carries exactly those; `none` means the key is absent. -/
structure UpdateMessagePayload : Type where
  id : Nat
  conversationId : String
  content : Option String := none
  metadata : Option MessageMetadata := none
deriving DecidableEq

/-- The object spread `{ ...message, ...action.payload }`: fields present
in the payload overwrite the stored message wholesale. -/
def mergeMessage (m : Message) (p : UpdateMessagePayload) : Message :=
  { m with
    id := p.id
    conversationId := p.conversationId
    content := p.content.getD m.content
    metadata := match p.metadata with
      | some md => some md
      | none => m.metadata }

/-- The `isCompleteMessage` heuristic of `updateMessage`:
`newContent && prevContent !== newContent && (prevContent === '...' ||
newContent.length > prevContent.length + 20)`.  JS falsiness of the
string `newContent` means: key present and non-empty. -/
def isCompleteMessage (prevContent : String) (newContent? : Option String) : Bool :=
  match newContent? with
  | none => false
  | some newContent =>
      !(newContent == "") && !(prevContent == newContent) &&
        (prevContent == "..." || decide (prevContent.length + 20 < newContent.length))

/-- `action.payload.metadata?.isGenerating === false`. -/
def marksGenerationFinished (p : UpdateMessagePayload) : Bool :=
  match p.metadata with
  | some md => md.isGenerating == some false
  | none => false

/-- The `updateMessage` reducer of `conversationSlice.ts`.  `now` models
`Date.now()`.  When the conversation or the message is not found the
reducer falls through both `findIndex` guards and the state is returned
untouched. -/
def updateMessage (s : ConversationState) (p : UpdateMessagePayload) (now : Nat) :
    ConversationState :=
  match s.conversations.find? (fun c => c.id == p.conversationId) with
  | none => s
  | some c =>
    match c.messages.find? (fun m => m.id == p.id) with
    | none => s
    | some m =>
      let complete := isCompleteMessage m.content p.content
      let convs := setFirstMatch (fun c0 => c0.id == p.conversationId)
        (fun c0 =>
          (c0.setMessages
            (setFirstMatch (fun m0 => m0.id == p.id) (fun m0 => mergeMessage m0 p)
              c0.messages)).setUpdated now)
        s.conversations
      let s1 := { s with conversations := convs }
      if complete && marksGenerationFinished p then
        { s1 with conversationStatus := fun k =>
            if k = p.conversationId then
              some { status := ConvStatus.idle, currentSpeakerId := none,
                     lastMessageId := some p.id }
            else s.conversationStatus k }
      else s1

/-- The `setConversationStatus` reducer: overwrites the entry, dropping
`currentSpeakerId` unless given, and preserving only `lastMessageId`. -/
def setConversationStatus (s : ConversationState) (conversationId : String)
    (status : ConvStatus) (currentSpeakerId : Option String) : ConversationState :=
  { s with conversationStatus := fun k =>
      if k = conversationId then
        some { status := status, currentSpeakerId := currentSpeakerId,
               lastMessageId := (s.conversationStatus conversationId).bind
                 (fun e => e.lastMessageId) }
      else s.conversationStatus k }

/-- Insert-or-overwrite into an object map modelled as an association
list (`parentConversation.branches[branchId] = branch`). -/
def upsertBranch (k : String) (v : Conversation) :
    List (String × Conversation) → List (String × Conversation)
  | [] => [(k, v)]
  | kv :: rest => if kv.1 == k then (k, v) :: rest else kv :: upsertBranch k v rest

/-- The `createBranch` reducer of `conversationSlice.ts`.  `now` models
the `Date.now()` calls. -/
def createBranch (s : ConversationState) (parentId branchId : String)
    (startFromMessageId : Nat) (title : String) (now : Nat) : ConversationState :=
  match s.conversations.find? (fun c => c.id == parentId) with
  | none => s
  | some parent =>
    match findIndexP (fun m => m.id == startFromMessageId) parent.messages with
    | none => s
    | some messageIndex =>
      let branchMessages := parent.messages.take (messageIndex + 1)
      let branch : Conversation :=
        Conversation.mk branchId title now now parent.participants branchMessages
          none (some parentId) true
      let convs := setFirstMatch (fun c => c.id == parentId)
        (fun pc => pc.setBranches (some (upsertBranch branchId branch (pc.branches.getD []))))
        s.conversations
      { s with
        conversations := convs ++ [branch]
        activeConversationId := some branchId }

/-! ## Websocket transport (`websocket.ts`) -/

/-- The readyState of a live socket handle (the `WebSocket` constants). -/
inductive ReadyState : Type where
  | CONNECTING
  | OPEN
  | CLOSING
  | CLOSED
deriving DecidableEq

/-- One wire envelope `{ type, data }`; the payload is abstracted to a
string identifying it. -/
structure Envelope : Type where
  type : String
  data : String
deriving DecidableEq

/-- The mutable fields of `WebSocketService` that the reconnect and send
logic reads and writes: `socket` (null or a handle with its readyState),
`reconnectAttempts` and `isEnabled`. -/
structure WSState : Type where
  socket : Option ReadyState
  reconnectAttempts : Nat
  isEnabled : Bool
deriving DecidableEq

/-- `maxReconnectAttempts = 5`. -/
def maxReconnectAttempts : Nat := 5

/-- `reconnectDelay = 1000` (the base delay in ms). -/
def reconnectDelayBase : ℚ := 1000

/-- The delay computed by `attemptReconnect` for attempt number `n`:
`Math.min(reconnectDelay * Math.pow(1.5, n - 1), 30000)`. -/
def reconnectDelayOf (n : Nat) : ℚ :=
  min (reconnectDelayBase * (3 / 2) ^ (n - 1)) 30000

/-- `attemptReconnect()`: increments the counter and schedules a
`connect` after the computed delay; returns the new state and the delay
of the timer it sets. -/
def attemptReconnect (s : WSState) : WSState × ℚ :=
  let s1 := { s with reconnectAttempts := s.reconnectAttempts + 1 }
  (s1, reconnectDelayOf s1.reconnectAttempts)

/-- The `socket.onclose` handler.  The browser has already moved the
socket to `CLOSED` when it fires.  A reconnect is attempted only when the
close was unclean, the counter is below `maxReconnectAttempts` and the
transport is enabled; the returned option is the delay of the reconnect
timer scheduled, if any. -/
def oncloseEvent (s : WSState) (wasClean : Bool) : WSState × Option ℚ :=
  let s0 := { s with socket := some ReadyState.CLOSED }
  if !wasClean && decide (s0.reconnectAttempts < maxReconnectAttempts) && s0.isEnabled then
    let r := attemptReconnect s0
    (r.1, some r.2)
  else (s0, none)

/-- The `socket.onopen` handler: the socket is now `OPEN` and the
reconnect counter is reset to zero. -/
def onopenEvent (s : WSState) : WSState :=
  { s with socket := some ReadyState.OPEN, reconnectAttempts := 0 }

/-- The connection lifecycle events that drive the reconnect counter. -/
inductive WSEvent : Type where
  | uncleanClose
  | cleanClose
  | openSuccess
deriving DecidableEq

/-- One lifecycle step of the transport. -/
def wsStep (s : WSState) : WSEvent → WSState
  | WSEvent.uncleanClose => (oncloseEvent s false).1
  | WSEvent.cleanClose => (oncloseEvent s true).1
  | WSEvent.openSuccess => onopenEvent s

/-- A run of lifecycle events. -/
def wsRun (s : WSState) : List WSEvent → WSState
  | [] => s
  | e :: es => wsRun (wsStep s e) es

/-- `send(type, data)`: transmits one envelope and returns `true` exactly
when a live handle exists in the `OPEN` state; otherwise returns `false`.
The service has no outbound queue at all, so the returned state is the
entire (unchanged) service state and the envelope list is everything put
on the wire by the call. -/
def send (s : WSState) (type data : String) : Bool × WSState × List Envelope :=
  if s.socket = some ReadyState.OPEN then
    (true, s, [Envelope.mk type data])
  else
    (false, s, [])

/-! ## Turn-orchestration controls (`ConversationControls.tsx`)

The handlers of this React component read the conversation status
through render-time constants (`isGenerating`, `isPaused`, `isStopped`,
`conversationStatus`).  A callback passed to `setTimeout` / `setInterval`
keeps the constants of the render in which it was created, so it observes
the status *snapshot* captured at scheduling time, not the live store.
The embedding therefore passes each handler the snapshot its closure
holds, alongside the live store. -/

/-- The persona fields the registration path uses. -/
structure Persona : Type where
  id : String
  name : String
deriving DecidableEq

/-- The component's `conversationStatus` selector:
`state.conversations.conversationStatus[conversationId] || { status: "idle" }`. -/
def statusOf (s : ConversationState) (conversationId : String) : ConvStatus :=
  ((s.conversationStatus conversationId).map (fun e => e.status)).getD ConvStatus.idle

/-- Store effect of `triggerNextTurn` given the status snapshot its
closure captured: skip when the snapshot is generating, paused or
stopped, otherwise set the status to `generating`. -/
def triggerNextTurnStep (snapshot : ConvStatus) (conversationId : String)
    (s : ConversationState) : ConversationState :=
  if snapshot = ConvStatus.generating ∨ snapshot = ConvStatus.paused ∨
      snapshot = ConvStatus.stopped then s
  else setConversationStatus s conversationId ConvStatus.generating none

/-- Commands `triggerNextTurn` sends, given its captured snapshot. -/
def triggerNextTurnCommands (snapshot : ConvStatus) (conversationId : String) :
    List Envelope :=
  if snapshot = ConvStatus.generating ∨ snapshot = ConvStatus.paused ∨
      snapshot = ConvStatus.stopped then []
  else [Envelope.mk "multi_agent_next_turn" conversationId]

/-- The registration loop of `startAutoMode`: one `register_persona`
command per participant whose persona is found in the persona list. -/
def registrationCommands (participants : List String) (personas : List Persona) :
    List Envelope :=
  participants.filterMap (fun participantId =>
    (personas.find? (fun p => p.id == participantId)).map
      (fun p => Envelope.mk "register_persona" p.id))

/-- Everything one `startAutoMode` cycle sends up to and including its
first turn request: the registration commands (synchronous), then — after
the 500 ms settle timeout — the first `triggerNextTurn`, guarded by the
snapshot `isGenerating` check of the timeout body. -/
def startCycleCommands (participants : List String) (personas : List Persona)
    (snapshot : ConvStatus) (conversationId : String) : List Envelope :=
  registrationCommands participants personas ++
    (if snapshot = ConvStatus.generating then []
     else triggerNextTurnCommands snapshot conversationId)

/-- Component-level state for the status-machine traces: the store plus
the pending 500 ms settle timeout of `startAutoMode` (which stores no
timer handle, so nothing ever cancels it) together with the status
snapshot its closure captured. -/
structure ControlsState : Type where
  store : ConversationState
  pendingSettle : Option ConvStatus

/-- User and timer events of the controls component. -/
inductive ControlsEvent : Type where
  | clickStartAuto
  | clickPause
  | settleFires
deriving DecidableEq

/-- One step of the controls component.
* `clickStartAuto` runs `startAutoMode`: if the current status is paused
  or stopped it dispatches `idle` (`resetConversation`), and it schedules
  the settle timeout whose closure captures the render-time status.
* `clickPause` runs `handlePause` with fresh render values: dispatch
  `idle` when currently paused, else dispatch `paused` (it clears only
  the interval ref, never the settle timeout, whose id was never kept).
* `settleFires` runs the pending timeout body
  `if (!isGenerating) triggerNextTurn()` against its captured snapshot. -/
def controlsStep (conversationId : String) (cs : ControlsState) :
    ControlsEvent → ControlsState
  | ControlsEvent.clickStartAuto =>
      let snapshot := statusOf cs.store conversationId
      let store1 :=
        if snapshot = ConvStatus.paused ∨ snapshot = ConvStatus.stopped then
          setConversationStatus cs.store conversationId ConvStatus.idle none
        else cs.store
      { store := store1, pendingSettle := some snapshot }
  | ControlsEvent.clickPause =>
      let snapshot := statusOf cs.store conversationId
      if snapshot = ConvStatus.paused then
        { cs with store := setConversationStatus cs.store conversationId ConvStatus.idle none }
      else
        { cs with store := setConversationStatus cs.store conversationId ConvStatus.paused none }
  | ControlsEvent.settleFires =>
      match cs.pendingSettle with
      | none => cs
      | some snap =>
          let store1 :=
            if snap = ConvStatus.generating then cs.store
            else triggerNextTurnStep snap conversationId cs.store
          { store := store1, pendingSettle := none }

/-! ## Driver for addMessage call sequences (for the id-uniqueness and
append-order invariants) -/

/-- One `addMessage` dispatch: its payload and the `Date.now()` value at
the call. -/
structure AddCall : Type where
  payload : AddMessagePayload
  now : Nat

/-- Runs a sequence of `addMessage` dispatches, threading the fresh-id
counter that models `uuidv4()`.  The reducer invokes `uuidv4()` only
inside its conversation-found branch, so the counter advances exactly on
the calls whose conversation exists. -/
def runAdds : ConversationState → Nat → List AddCall → ConversationState
  | s, _, [] => s
  | s, n, a :: rest =>
    if s.conversations.any (fun c => c.id == a.payload.conversationId) then
      runAdds (addMessage s a.payload n a.now) (n + 1) rest
    else
      runAdds (addMessage s a.payload n a.now) n rest

/-- The ids of the conversations of a store, in order. -/
def conversationIds (s : ConversationState) : List String :=
  s.conversations.map (fun c => c.id)

/-- The message list of the first conversation carrying the given id. -/
def messagesOf (s : ConversationState) (cid : String) : Option (List Message) :=
  (s.conversations.find? (fun c => c.id == cid)).map (fun c => c.messages)

/-- The messages a call sequence appends to conversation `cid`, in call
order, with ids drawn from the threaded counter; `ids` is the (fixed)
list of existing conversation ids. -/
def expectedNew (ids : List String) (cid : String) : Nat → List AddCall → List Message
  | _, [] => []
  | n, a :: rest =>
    if ids.any (fun i => i == a.payload.conversationId) then
      (if a.payload.conversationId == cid then [mkNewMessage a.payload n a.now] else []) ++
        expectedNew ids cid (n + 1) rest
    else
      expectedNew ids cid n rest

/-! ## Concrete fixtures used by witnesses and counterexamples -/

/-- A minimal conversation fixture. -/
def mkConv (id : String) (ms : List Message) : Conversation :=
  Conversation.mk id "title" 0 0 [] ms none none true

/-- A minimal store fixture. -/
def mkState (cs : List Conversation) (st : String → Option StatusEntry) :
    ConversationState :=
  { conversations := cs, activeConversationId := none, conversationStatus := st,
    isLoading := false, error := none }

def exMsg1 : Message :=
  { id := 1, conversationId := "c1", senderId := "user",
    senderType := SenderType.user, content := "hi", timestamp := 0 }

def exMsgDots : Message :=
  { id := 0, conversationId := "c1", senderId := "p1",
    senderType := SenderType.agent, content := "...", timestamp := 0 }

/-- Store with one conversation `c1` holding no message. -/
def exStateNoMsg : ConversationState := mkState [mkConv "c1" []] (fun _ => none)

/-- Store with one conversation `c1` holding the single message `exMsg1`. -/
def exStateOneMsg : ConversationState :=
  mkState [mkConv "c1" [exMsg1]] (fun _ => none)

/-- Store with `c1` holding the placeholder message and turn status
`generating`. -/
def exStateDots : ConversationState :=
  mkState [mkConv "c1" [exMsgDots]]
    (fun k => if k = "c1" then some { status := ConvStatus.generating } else none)

def exAddPayload : AddMessagePayload :=
  { conversationId := "c1", senderId := "user", senderType := SenderType.user,
    content := "hello" }

/-- An update that per the spec wording is a finished completion (prior
content is the sentinel, content changed, generation marked finished) but
whose new content is the empty string. -/
def exEmptyCompletionPayload : UpdateMessagePayload :=
  { id := 0, conversationId := "c1", content := some "",
    metadata := some { isGenerating := some false } }

/-- A genuine finished completion replacing the sentinel placeholder. -/
def exGoodCompletionPayload : UpdateMessagePayload :=
  { id := 0, conversationId := "c1", content := some "Hi",
    metadata := some { isGenerating := some false } }

/-- Initial component state for the status-machine trace: empty store,
no pending settle timeout. -/
def c5Init : ControlsState :=
  { store := mkState [] (fun _ => none), pendingSettle := none }

/-- A call sequence: two appends to the existing `c1` around one append
to the non-existent `zz`. -/
def exCallPayloadZZ : AddMessagePayload :=
  { conversationId := "zz", senderId := "u", senderType := SenderType.user,
    content := "x" }

def exCallPayloadAgain : AddMessagePayload :=
  { conversationId := "c1", senderId := "p1", senderType := SenderType.agent,
    content := "again" }

def exCalls : List AddCall :=
  [ { payload := exAddPayload, now := 1 },
    { payload := exCallPayloadZZ, now := 2 },
    { payload := exCallPayloadAgain, now := 3 } ]

/-! ## Helper lemmas -/

theorem Conversation.id_setMessages (c : Conversation) (ms : List Message) :
    (c.setMessages ms).id = c.id := by
  cases c; rfl

theorem Conversation.id_setUpdated (c : Conversation) (n : Nat) :
    (c.setUpdated n).id = c.id := by
  cases c; rfl

theorem Conversation.id_setBranches (c : Conversation)
    (b : Option (List (String × Conversation))) : (c.setBranches b).id = c.id := by
  cases c; rfl

theorem Conversation.messages_setMessages (c : Conversation) (ms : List Message) :
    (c.setMessages ms).messages = ms := by
  cases c; rfl

theorem Conversation.messages_setUpdated (c : Conversation) (n : Nat) :
    (c.setUpdated n).messages = c.messages := by
  cases c; rfl

theorem Conversation.branches_setBranches (c : Conversation)
    (b : Option (List (String × Conversation))) : (c.setBranches b).branches = b := by
  cases c; rfl

/-- `setFirstMatch` leaves any projection invariant under `f` untouched. -/
theorem map_setFirstMatch {α β : Type} (p : α → Bool) (f : α → α) (g : α → β)
    (hgf : ∀ a, g (f a) = g a) :
    ∀ l : List α, (setFirstMatch p f l).map g = l.map g := by
  intro l
  induction l with
  | nil => rfl
  | cons x xs ih =>
      by_cases hx : p x = true
      · simp [setFirstMatch, hx, hgf]
      · simp [setFirstMatch, hx, ih]

/-- Searching with the same predicate after `setFirstMatch` finds the
modified element, provided `f` does not change the predicate value. -/
theorem find?_setFirstMatch {α : Type} (p : α → Bool) (f : α → α)
    (hf : ∀ a, p (f a) = p a) :
    ∀ l : List α, (setFirstMatch p f l).find? p = (l.find? p).map f := by
  intro l
  induction l with
  | nil => rfl
  | cons x xs ih =>
      by_cases hx : p x = true
      · simp [setFirstMatch, hx, List.find?_cons, hf]
      · simp [setFirstMatch, hx, List.find?_cons, ih]

/-- Searching with a predicate disjoint from the modified one is
unaffected by `setFirstMatch`. -/
theorem find?_setFirstMatch_disjoint {α : Type} (p q : α → Bool) (f : α → α)
    (hq : ∀ a, q (f a) = q a) (hd : ∀ a, p a = true → q a = false) :
    ∀ l : List α, (setFirstMatch p f l).find? q = l.find? q := by
  intro l
  induction l with
  | nil => rfl
  | cons x xs ih =>
      by_cases hx : p x = true
      · have hqx : q x = false := hd x hx
        simp [setFirstMatch, hx, List.find?_cons, hq, hqx]
      · by_cases hqx : q x = true
        · simp [setFirstMatch, hx, List.find?_cons, hqx]
        · simp only [Bool.not_eq_true] at hqx
          simp [setFirstMatch, hx, List.find?_cons, hqx, ih]

/-- Membership after `setFirstMatch`: every element is an old element or
the image of one. -/
theorem mem_setFirstMatch {α : Type} (p : α → Bool) (f : α → α) :
    ∀ (l : List α) (x : α), x ∈ setFirstMatch p f l → x ∈ l ∨ ∃ y ∈ l, x = f y := by
  intro l
  induction l with
  | nil => intro x hx; cases hx
  | cons a as ih =>
      intro x hx
      by_cases ha : p a = true
      · simp only [setFirstMatch, ha, if_true, List.mem_cons] at hx
        rcases hx with hx | hx
        · exact Or.inr ⟨a, List.mem_cons_self a as, hx⟩
        · exact Or.inl (List.mem_cons_of_mem a hx)
      · simp only [setFirstMatch, ha, if_false, Bool.false_eq_true, List.mem_cons] at hx
        rcases hx with hx | hx
        · exact Or.inl (hx ▸ List.mem_cons_self a as)
        · rcases ih x hx with h | ⟨y, hy, hxy⟩
          · exact Or.inl (List.mem_cons_of_mem a h)
          · exact Or.inr ⟨y, List.mem_cons_of_mem a hy, hxy⟩

/-- `any` over a mapped list. -/
theorem any_map_comp {α β : Type} (f : α → β) (p : β → Bool) :
    ∀ l : List α, (l.map f).any p = l.any (fun a => p (f a)) := by
  intro l
  induction l with
  | nil => rfl
  | cons x xs ih => simp [List.any_cons, ih]

/-- The append-and-stamp update of `addMessage` keeps the conversation
id. -/
theorem id_after_append (p : AddMessagePayload) (n t : Nat) (a : Conversation) :
    ((a.setMessages (a.messages ++ [mkNewMessage p n t])).setUpdated t).id = a.id := by
  rw [Conversation.id_setUpdated, Conversation.id_setMessages]

/-- Boolean form of `id_after_append` against any id. -/
theorem idbeq_after_append (p : AddMessagePayload) (n t : Nat) (cid : String)
    (a : Conversation) :
    (((a.setMessages (a.messages ++ [mkNewMessage p n t])).setUpdated t).id == cid) =
      (a.id == cid) := by
  rw [id_after_append]

/-- A successful `find?` makes `any` true. -/
theorem any_of_find? {α : Type} (p : α → Bool) (l : List α) (x : α)
    (h : l.find? p = some x) : l.any p = true := by
  refine List.any_eq_true.mpr ⟨x, List.mem_of_find?_eq_some h, List.find?_some h⟩

/-- Splitting the prefix through the first index found by `findIndexP`:
the element at the found index satisfies the predicate. -/
theorem findIndexP_take {α : Type} (p : α → Bool) :
    ∀ (l : List α) (i : Nat), findIndexP p l = some i →
      ∃ x, l.take (i + 1) = l.take i ++ [x] ∧ p x = true := by
  intro l
  induction l with
  | nil => intro i h; cases h
  | cons a as ih =>
      intro i h
      by_cases ha : p a = true
      · simp only [findIndexP, ha, if_true, Option.some.injEq] at h
        subst h
        exact ⟨a, rfl, ha⟩
      · simp only [findIndexP, ha, if_false, Bool.false_eq_true,
          Option.map_eq_some'] at h
        rcases h with ⟨j, hj, rfl⟩
        rcases ih j hj with ⟨x, hx, hpx⟩
        refine ⟨x, ?_, hpx⟩
        simp [List.take_succ_cons, hx]

/-- Lookup after insert-or-overwrite finds the inserted binding. -/
theorem upsertBranch_find? (k : String) (v : Conversation) :
    ∀ l : List (String × Conversation),
      (upsertBranch k v l).find? (fun kv => kv.1 == k) = some (k, v) := by
  intro l
  induction l with
  | nil => simp [upsertBranch, List.find?_cons]
  | cons kv rest ih =>
      by_cases hk : (kv.1 == k) = true
      · simp [upsertBranch, hk, List.find?_cons]
      · simp only [Bool.not_eq_true] at hk
        simp [upsertBranch, hk, List.find?_cons, ih]

/-! ## C3: send is fire-and-forget -/

/-- C3: for every call `send(type, data)`: if no live connection handle
exists or the connection is not `OPEN`, `send` returns `false`, transmits
nothing, changes no service state (there is no queue, so nothing can be
delivered later for the call) and raises no exception (it is a total
function); if the connection is open it transmits exactly the one
envelope `{type, data}` and returns `true`. -/
theorem send_contract (s : WSState) (type data : String) :
    (s.socket ≠ some ReadyState.OPEN →
      send s type data = (false, s, [])) ∧
    (s.socket = some ReadyState.OPEN →
      send s type data = (true, s, [Envelope.mk type data])) := by
  constructor
  · intro h; simp [send, h]
  · intro h; simp [send, h]

/-- Witness for `send_contract` at concrete states: a closed socket and
an open one. -/
theorem send_contract_witness :
    send (WSState.mk (some ReadyState.CLOSED) 2 true) "generate_message" "d" =
      (false, WSState.mk (some ReadyState.CLOSED) 2 true, []) ∧
    send (WSState.mk (some ReadyState.OPEN) 0 true) "stop_generation" "c1" =
      (true, WSState.mk (some ReadyState.OPEN) 0 true,
        [Envelope.mk "stop_generation" "c1"]) :=
  ⟨(send_contract (WSState.mk (some ReadyState.CLOSED) 2 true) "generate_message" "d").1
      (by decide),
   (send_contract (WSState.mk (some ReadyState.OPEN) 0 true) "stop_generation" "c1").2
      rfl⟩

/-! ## C2: reconnect policy -/

/-- One lifecycle step never pushes the counter above the ceiling. -/
theorem wsStep_le (s : WSState) (e : WSEvent)
    (h : s.reconnectAttempts ≤ maxReconnectAttempts) :
    (wsStep s e).reconnectAttempts ≤ maxReconnectAttempts := by
  cases e with
  | uncleanClose =>
      by_cases hlt : s.reconnectAttempts < maxReconnectAttempts
      · by_cases hen : s.isEnabled = true
        · simp only [wsStep, oncloseEvent, attemptReconnect, hlt, hen,
            Bool.not_false, decide_True, Bool.and_true, Bool.true_and,
            Bool.and_self, if_true]
          exact Nat.succ_le_of_lt hlt
        · simp only [Bool.not_eq_true] at hen
          simp [wsStep, oncloseEvent, attemptReconnect, hlt, hen]
          exact h
      · simp [wsStep, oncloseEvent, attemptReconnect, hlt]
        exact h
  | cleanClose => simpa [wsStep, oncloseEvent] using h
  | openSuccess => simp [wsStep, onopenEvent]

/-- C2: on an unclean close, a reconnect is scheduled only while the
transport is enabled and the consecutive-failure counter is strictly
below 5, and the scheduled delay before attempt `n = attempts + 1`
equals `min(1000 · 1.5^(n−1), 30000)` ms; hence over any run of
lifecycle events the counter never exceeds 5; and a successful open
resets the counter to 0. -/
theorem reconnect_policy :
    (∀ (s s' : WSState) (d : ℚ), oncloseEvent s false = (s', some d) →
      s.reconnectAttempts < 5 ∧ s.isEnabled = true ∧
      s'.reconnectAttempts = s.reconnectAttempts + 1 ∧
      d = min (1000 * (3 / 2 : ℚ) ^ (s.reconnectAttempts + 1 - 1)) 30000) ∧
    (∀ (s : WSState) (events : List WSEvent),
      s.reconnectAttempts ≤ 5 → (wsRun s events).reconnectAttempts ≤ 5) ∧
    (∀ s : WSState, (onopenEvent s).reconnectAttempts = 0) := by
  refine ⟨?_, ?_, fun s => rfl⟩
  · intro s s' d h
    by_cases hlt : s.reconnectAttempts < maxReconnectAttempts
    · by_cases hen : s.isEnabled = true
      · simp only [oncloseEvent, attemptReconnect, hlt, hen, Bool.not_false,
          decide_True, Bool.and_self, Bool.true_and, Bool.and_true, if_true,
          Prod.mk.injEq, Option.some.injEq] at h
        obtain ⟨hs, hd⟩ := h
        subst hs
        subst hd
        refine ⟨hlt, hen, rfl, ?_⟩
        simp [reconnectDelayOf, reconnectDelayBase]
      · simp only [Bool.not_eq_true] at hen
        simp [oncloseEvent, hen] at h
    · simp [oncloseEvent, hlt] at h
  · intro s events
    induction events generalizing s with
    | nil => intro h; exact h
    | cons e es ih => intro h; exact ih (wsStep s e) (wsStep_le s e h)

/-- Witness for `reconnect_policy`: a concrete unclean close at counter 3
while enabled, and a concrete event run starting at the ceiling. -/
theorem reconnect_policy_witness :
    ((WSState.mk (some ReadyState.CLOSED) 3 true).reconnectAttempts < 5 ∧
      (WSState.mk (some ReadyState.CLOSED) 3 true).isEnabled = true ∧
      (WSState.mk (some ReadyState.CLOSED) 4 true).reconnectAttempts = 3 + 1 ∧
      (min (1000 * (3 / 2 : ℚ) ^ 3) 30000 : ℚ) =
        min (1000 * (3 / 2 : ℚ) ^ (3 + 1 - 1)) 30000) ∧
    (wsRun (WSState.mk none 5 true)
      [WSEvent.uncleanClose, WSEvent.openSuccess, WSEvent.uncleanClose,
        WSEvent.cleanClose]).reconnectAttempts ≤ 5 :=
  ⟨reconnect_policy.1 (WSState.mk (some ReadyState.CLOSED) 3 true)
      (WSState.mk (some ReadyState.CLOSED) 4 true)
      (min (1000 * (3 / 2 : ℚ) ^ 3) 30000)
      (by norm_num [oncloseEvent, attemptReconnect, maxReconnectAttempts,
            reconnectDelayOf, reconnectDelayBase]),
   reconnect_policy.2.1 (WSState.mk none 5 true)
      [WSEvent.uncleanClose, WSEvent.openSuccess, WSEvent.uncleanClose,
        WSEvent.cleanClose] (by decide)⟩

/-! ## C10: unknown conversation id is a silent no-op -/

/-- C10: an `addMessage` or `updateMessage` call whose `conversationId`
matches no conversation leaves the entire store state (a full
`ConversationState` equality: conversation list, messages, status map)
unchanged, and no error is raised (both reducers are total). -/
theorem missing_conversation_noop (s : ConversationState)
    (p : AddMessagePayload) (q : UpdateMessagePayload) (freshId nowA nowU : Nat)
    (hp : ∀ c ∈ s.conversations, c.id ≠ p.conversationId)
    (hq : ∀ c ∈ s.conversations, c.id ≠ q.conversationId) :
    addMessage s p freshId nowA = s ∧ updateMessage s q nowU = s := by
  constructor
  · have hany : s.conversations.any (fun c => c.id == p.conversationId) = false := by
      rw [List.any_eq_false]
      intro c hcmem
      simp [hp c hcmem]
    simp [addMessage, hany]
  · have hfind : s.conversations.find? (fun c => c.id == q.conversationId) = none :=
      List.find?_eq_none.mpr (fun c hcmem => by simp [hq c hcmem])
    simp [updateMessage, hfind]

/-- Witness for `missing_conversation_noop`: conversation id `c9` is
absent from a store that holds only `c1`. -/
theorem missing_conversation_noop_witness :
    addMessage exStateOneMsg
        { conversationId := "c9", senderId := "user",
          senderType := SenderType.user, content := "x" } 5 6 = exStateOneMsg ∧
    updateMessage exStateOneMsg
        { id := 1, conversationId := "c9", content := some "y" } 7 = exStateOneMsg :=
  missing_conversation_noop exStateOneMsg
    { conversationId := "c9", senderId := "user",
      senderType := SenderType.user, content := "x" }
    { id := 1, conversationId := "c9", content := some "y" } 5 6 7
    (by decide) (by decide)

/-! ## C1: updateMessage on a missing message -/

/-- C1 counterexample: `updateMessage` on the pair (conversation `c1`,
message id 0) where `c1` exists but holds no message with id 0 appends
nothing — the store is returned untouched and the conversation still has
zero messages — refuting the claimed append-if-missing behaviour. -/
theorem updateMessage_missing_no_append_counterexample :
    updateMessage exStateNoMsg
        { id := 0, conversationId := "c1", content := some "hello" } 7 =
      exStateNoMsg ∧
    ((updateMessage exStateNoMsg
        { id := 0, conversationId := "c1", content := some "hello" } 7).conversations.find?
          (fun c => c.id == "c1")).map (fun c => c.messages.length) = some 0 :=
  ⟨rfl, rfl⟩

/-- C1 (amended): `updateMessage` on a (conversationId, messageId) pair
whose conversation exists but contains no message with that id is a
silent no-op: no message is created, the whole store is unchanged, and no
error is raised (the reducer is total). -/
theorem updateMessage_missing_message_noop (s : ConversationState)
    (p : UpdateMessagePayload) (now : Nat) (c : Conversation)
    (hc : s.conversations.find? (fun c0 => c0.id == p.conversationId) = some c)
    (hm : ∀ m ∈ c.messages, m.id ≠ p.id) :
    updateMessage s p now = s := by
  have hfind : c.messages.find? (fun m => m.id == p.id) = none :=
    List.find?_eq_none.mpr (fun m hmem => by simp [hm m hmem])
  simp [updateMessage, hc, hfind]

/-- Witness for `updateMessage_missing_message_noop`: `c1` holds only
message id 1, the payload targets id 0. -/
theorem updateMessage_missing_message_noop_witness :
    updateMessage exStateOneMsg
        { id := 0, conversationId := "c1", content := some "z" } 9 = exStateOneMsg :=
  updateMessage_missing_message_noop exStateOneMsg
    { id := 0, conversationId := "c1", content := some "z" } 9
    (mkConv "c1" [exMsg1]) rfl (by decide)

/-! ## C7: addMessage appends with fresh id and timestamp -/

/-- C7: `addMessage` on an existing conversation appends exactly one
message — carrying the freshly assigned id and timestamp — at the end of
that conversation's message sequence (and bumps its `updated` stamp);
when the sender kind is `user` the conversation's turn status is forced
to `idle` with `lastMessageId` set to the new message's id. -/
theorem addMessage_appends (s : ConversationState) (p : AddMessagePayload)
    (freshId now : Nat) (c : Conversation)
    (hc : s.conversations.find? (fun c0 => c0.id == p.conversationId) = some c) :
    ((addMessage s p freshId now).conversations.find?
        (fun c0 => c0.id == p.conversationId) =
      some ((c.setMessages (c.messages ++ [mkNewMessage p freshId now])).setUpdated now)) ∧
    (p.senderType = SenderType.user →
      (addMessage s p freshId now).conversationStatus p.conversationId =
        some { status := ConvStatus.idle, currentSpeakerId := none,
               lastMessageId := some freshId }) := by
  have hany := any_of_find? (fun c0 => c0.id == p.conversationId) s.conversations c hc
  have hpres : ∀ a : Conversation,
      (((a.setMessages (a.messages ++ [mkNewMessage p freshId now])).setUpdated now).id ==
        p.conversationId) = (a.id == p.conversationId) := by
    intro a
    rw [Conversation.id_setUpdated, Conversation.id_setMessages]
  have hfind := find?_setFirstMatch (fun c0 => c0.id == p.conversationId)
    (fun c0 => (c0.setMessages (c0.messages ++ [mkNewMessage p freshId now])).setUpdated now)
    hpres s.conversations
  constructor
  · by_cases hu : p.senderType = SenderType.user
    · simp only [addMessage, hany, if_true, hu, if_pos]
      rw [hfind, hc]
      rfl
    · simp only [addMessage, hany, if_true, hu, if_false]
      rw [hfind, hc]
      rfl
  · intro hu
    simp only [addMessage, hany, if_true, hu, if_pos]

/-- Witness for `addMessage_appends`: a user message appended to the
empty conversation `c1`. -/
theorem addMessage_appends_witness :
    ((addMessage exStateNoMsg exAddPayload 42 9).conversations.find?
        (fun c0 => c0.id == "c1") =
      some (((mkConv "c1" []).setMessages
        ((mkConv "c1" []).messages ++ [mkNewMessage exAddPayload 42 9])).setUpdated 9)) ∧
    (addMessage exStateNoMsg exAddPayload 42 9).conversationStatus "c1" =
      some { status := ConvStatus.idle, currentSpeakerId := none,
             lastMessageId := some 42 } :=
  ⟨(addMessage_appends exStateNoMsg exAddPayload 42 9 (mkConv "c1" []) rfl).1,
   (addMessage_appends exStateNoMsg exAddPayload 42 9 (mkConv "c1" []) rfl).2 rfl⟩

/-! ## C4: completion classification and the turn-status transition -/

/-- The Boolean completion-and-finished test of `updateMessage`,
expressed as the corresponding proposition. -/
theorem completion_test_iff (mcontent : String) (p : UpdateMessagePayload) :
    (isCompleteMessage mcontent p.content && marksGenerationFinished p) = true ↔
      ((∃ newContent, p.content = some newContent ∧ newContent ≠ "" ∧
          mcontent ≠ newContent ∧
          (mcontent = "..." ∨ mcontent.length + 20 < newContent.length)) ∧
        (∃ md, p.metadata = some md ∧ md.isGenerating = some false)) := by
  cases hpc : p.content with
  | none => simp [isCompleteMessage, hpc]
  | some nc =>
      cases hpm : p.metadata with
      | none => simp [isCompleteMessage, marksGenerationFinished, hpc, hpm]
      | some md =>
          simp only [isCompleteMessage, marksGenerationFinished, hpc, hpm,
            Bool.and_eq_true, Bool.not_eq_eq_eq_not, Bool.not_true, beq_eq_false_iff_ne,
            ne_eq, Bool.or_eq_true, beq_iff_eq, decide_eq_true_eq,
            Option.some.injEq, exists_eq_left, exists_eq_left']
          tauto

/-- C4 (amended): for `updateMessage` applied to an existing message, the
conversation's turn status becomes `idle` with `lastMessageId` the
message's id exactly when the update carries a *non-empty* new content
that differs from the prior content, the prior content was the sentinel
placeholder `...` or the new length exceeds the prior length by more
than 20, and the payload marks generation finished
(`metadata.isGenerating === false`); in every other case the operation
leaves the whole turn-status map untouched. -/
theorem updateMessage_completion_status (s : ConversationState)
    (p : UpdateMessagePayload) (now : Nat) (c : Conversation) (m : Message)
    (hc : s.conversations.find? (fun c0 => c0.id == p.conversationId) = some c)
    (hm : c.messages.find? (fun m0 => m0.id == p.id) = some m) :
    (((∃ newContent, p.content = some newContent ∧ newContent ≠ "" ∧
          m.content ≠ newContent ∧
          (m.content = "..." ∨ m.content.length + 20 < newContent.length)) ∧
        (∃ md, p.metadata = some md ∧ md.isGenerating = some false)) →
      (updateMessage s p now).conversationStatus p.conversationId =
        some { status := ConvStatus.idle, currentSpeakerId := none,
               lastMessageId := some p.id }) ∧
    (¬ (((∃ newContent, p.content = some newContent ∧ newContent ≠ "" ∧
          m.content ≠ newContent ∧
          (m.content = "..." ∨ m.content.length + 20 < newContent.length)) ∧
        (∃ md, p.metadata = some md ∧ md.isGenerating = some false))) →
      ∀ k, (updateMessage s p now).conversationStatus k = s.conversationStatus k) := by
  constructor
  · intro hcond
    have hb : (isCompleteMessage m.content p.content && marksGenerationFinished p) = true :=
      (completion_test_iff m.content p).mpr hcond
    simp only [updateMessage, hc, hm, hb, if_true]
  · intro hcond
    have hb : (isCompleteMessage m.content p.content && marksGenerationFinished p) = false :=
      Bool.eq_false_iff.mpr (fun h => hcond ((completion_test_iff m.content p).mp h))
    simp only [updateMessage, hc, hm, hb, Bool.false_eq_true, if_false]
    intro k
    trivial

/-- Witness for `updateMessage_completion_status`: replacing the sentinel
placeholder by a short non-empty content with `isGenerating: false` moves
the status from `generating` to `idle` and records the message id. -/
theorem updateMessage_completion_status_witness :
    (updateMessage exStateDots exGoodCompletionPayload 9).conversationStatus "c1" =
      some { status := ConvStatus.idle, currentSpeakerId := none,
             lastMessageId := some 0 } :=
  (updateMessage_completion_status exStateDots exGoodCompletionPayload 9
      (mkConv "c1" [exMsgDots]) exMsgDots rfl rfl).1
    ⟨⟨"Hi", rfl, by decide, by decide, Or.inl rfl⟩,
     { isGenerating := some false }, rfl, rfl⟩

/-- C4 counterexample: the stored message holds the sentinel `...`, the
update carries the *empty* new content (a changed content) and marks
generation finished, so the claim's classification calls it a completion;
the code's JS-falsiness guard on `newContent` does not, and the turn
status stays `generating` instead of becoming `idle`. -/
theorem updateMessage_empty_completion_counterexample :
    (updateMessage exStateDots exEmptyCompletionPayload 9).conversationStatus "c1" =
      some { status := ConvStatus.generating, currentSpeakerId := none,
             lastMessageId := none } ∧
    exMsgDots.content = "..." ∧
    exEmptyCompletionPayload.content = some "" ∧ ("" : String) ≠ "..." ∧
    exEmptyCompletionPayload.metadata = some { isGenerating := some false } := by
  refine ⟨rfl, rfl, rfl, by decide, rfl⟩

/-! ## C5: a direct paused → generating transition is reachable -/

/-- C5 (violation trace): starting auto mode while `idle` schedules the
settle timeout whose closure captures the `idle` snapshot; pausing
before it fires moves the store to `paused` (the timeout id was never
stored, so nothing cancels it); when the timeout fires, its stale
snapshot passes the `triggerNextTurn` guard and the store jumps straight
from `paused` to `generating` without passing through `idle`. -/
theorem paused_to_generating_trace :
    statusOf ((controlsStep "c1"
        (controlsStep "c1" c5Init ControlsEvent.clickStartAuto)
        ControlsEvent.clickPause).store) "c1" = ConvStatus.paused ∧
    statusOf ((controlsStep "c1"
        (controlsStep "c1"
          (controlsStep "c1" c5Init ControlsEvent.clickStartAuto)
          ControlsEvent.clickPause)
        ControlsEvent.settleFires).store) "c1" = ConvStatus.generating := by
  exact ⟨rfl, rfl⟩

/-! ## C6: registrations of one startAutoMode cycle -/

/-- Unfolding `registrationCommands` on a participant with no matching
persona. -/
theorem registrationCommands_cons_none (personas : List Persona) (q : String)
    (rest : List String) (h : personas.find? (fun p => p.id == q) = none) :
    registrationCommands (q :: rest) personas = registrationCommands rest personas := by
  simp [registrationCommands, List.filterMap_cons, h]

/-- Unfolding `registrationCommands` on a participant whose persona is
found. -/
theorem registrationCommands_cons_some (personas : List Persona) (q : String)
    (rest : List String) (r : Persona)
    (h : personas.find? (fun p => p.id == q) = some r) :
    registrationCommands (q :: rest) personas =
      Envelope.mk "register_persona" r.id :: registrationCommands rest personas := by
  simp [registrationCommands, List.filterMap_cons, h]

/-- No registration envelope carries the id of a participant that is not
in the list. -/
theorem registrationCommands_countP_zero (personas : List Persona) (pid : String) :
    ∀ participants : List String, pid ∉ participants →
      (registrationCommands participants personas).countP
        (fun e => e.type == "register_persona" && e.data == pid) = 0 := by
  intro participants
  induction participants with
  | nil => intro _; rfl
  | cons q rest ih =>
      intro hmem
      have hq : q ≠ pid := fun h => hmem (h ▸ List.mem_cons_self q rest)
      have hrest : pid ∉ rest := fun h => hmem (List.mem_cons_of_mem q h)
      cases hfq : personas.find? (fun r => r.id == q) with
      | none =>
          rw [registrationCommands_cons_none personas q rest hfq]
          exact ih hrest
      | some r =>
          have hrid : r.id = q := by
            have := List.find?_some hfq
            simpa [beq_iff_eq] using this
          rw [registrationCommands_cons_some personas q rest r hfq, List.countP_cons,
            ih hrest]
          simp [hrid, hq]

/-- Exactly one registration envelope carries the id of a listed
participant whose persona resolves, when the participant list has no
duplicates. -/
theorem registrationCommands_countP_one (personas : List Persona) (pid : String)
    (pers : Persona) (hfind : personas.find? (fun q => q.id == pid) = some pers) :
    ∀ participants : List String, participants.Nodup → pid ∈ participants →
      (registrationCommands participants personas).countP
        (fun e => e.type == "register_persona" && e.data == pid) = 1 := by
  intro participants
  induction participants with
  | nil => intro _ hmem; cases hmem
  | cons q rest ih =>
      intro hnd hmem
      have hnd' := List.nodup_cons.mp hnd
      by_cases hq : q = pid
      · subst hq
        have hpid : pers.id = q := by
          have := List.find?_some hfind
          simpa [beq_iff_eq] using this
        rw [registrationCommands_cons_some personas q rest pers hfind, List.countP_cons,
          registrationCommands_countP_zero personas q rest hnd'.1]
        simp [hpid]
      · have hrest : pid ∈ rest := by
          rcases List.mem_cons.mp hmem with h | h
          · exact absurd h.symm hq
          · exact h
        cases hfq : personas.find? (fun r => r.id == q) with
        | none =>
            rw [registrationCommands_cons_none personas q rest hfq]
            exact ih hnd'.2 hrest
        | some r =>
            have hrid : r.id = q := by
              have := List.find?_some hfq
              simpa [beq_iff_eq] using this
            rw [registrationCommands_cons_some personas q rest r hfq, List.countP_cons,
              ih hnd'.2 hrest]
            simp [hrid, hq]

/-- C6 (amended): a `startAutoMode` cycle sends exactly one
`register_persona` command for every participant *whose id matches a
persona in the persona list* (given a duplicate-free participant list),
and every registration is sent before the first `multi_agent_next_turn`
request of the cycle. -/
theorem startCycle_registration (participants : List String) (personas : List Persona)
    (snapshot : ConvStatus) (cid pid : String) (pers : Persona)
    (hnd : participants.Nodup)
    (hmem : pid ∈ participants)
    (hfind : personas.find? (fun q => q.id == pid) = some pers) :
    ((startCycleCommands participants personas snapshot cid).countP
        (fun e => e.type == "register_persona" && e.data == pid) = 1) ∧
    (∃ regs tick, startCycleCommands participants personas snapshot cid = regs ++ tick ∧
      (∀ e ∈ regs, e.type = "register_persona") ∧
      (∀ e ∈ tick, e.type = "multi_agent_next_turn")) := by
  constructor
  · rw [startCycleCommands, List.countP_append,
      registrationCommands_countP_one personas pid pers hfind participants hnd hmem]
    have htick : ∀ e ∈ (if snapshot = ConvStatus.generating then []
        else triggerNextTurnCommands snapshot cid),
        ¬ ((e.type == "register_persona" && e.data == pid) = true) := by
      intro e he
      by_cases hsg : snapshot = ConvStatus.generating
      · simp [hsg] at he
      · simp only [hsg, if_false] at he
        by_cases hblock : snapshot = ConvStatus.generating ∨ snapshot = ConvStatus.paused ∨
            snapshot = ConvStatus.stopped
        · simp [triggerNextTurnCommands, hblock] at he
        · simp only [triggerNextTurnCommands, hblock, if_false, List.mem_singleton] at he
          subst he
          simp [Envelope.type]
    rw [List.countP_eq_zero.mpr htick]
  · refine ⟨registrationCommands participants personas,
      (if snapshot = ConvStatus.generating then []
        else triggerNextTurnCommands snapshot cid), rfl, ?_, ?_⟩
    · intro e he
      rcases List.mem_filterMap.mp he with ⟨q, _, hq⟩
      rcases Option.map_eq_some'.mp hq with ⟨r, _, rfl⟩
      rfl
    · intro e he
      by_cases hsg : snapshot = ConvStatus.generating
      · simp [hsg] at he
      · simp only [hsg, if_false] at he
        by_cases hblock : snapshot = ConvStatus.generating ∨ snapshot = ConvStatus.paused ∨
            snapshot = ConvStatus.stopped
        · simp [triggerNextTurnCommands, hblock] at he
        · simp only [triggerNextTurnCommands, hblock, if_false, List.mem_singleton] at he
          subst he
          rfl

/-- Witness for `startCycle_registration`: participants `p1, p2`, only
`p1` resolving to a persona, idle snapshot. -/
theorem startCycle_registration_witness :
    ((startCycleCommands ["p1", "p2"] [Persona.mk "p1" "Alice"] ConvStatus.idle "c1").countP
        (fun e => e.type == "register_persona" && e.data == "p1") = 1) ∧
    (∃ regs tick,
      startCycleCommands ["p1", "p2"] [Persona.mk "p1" "Alice"] ConvStatus.idle "c1" =
        regs ++ tick ∧
      (∀ e ∈ regs, e.type = "register_persona") ∧
      (∀ e ∈ tick, e.type = "multi_agent_next_turn")) :=
  startCycle_registration ["p1", "p2"] [Persona.mk "p1" "Alice"] ConvStatus.idle
    "c1" "p1" (Persona.mk "p1" "Alice") (by decide) (by decide) rfl

/-- C6 counterexample: with one participant whose persona is missing
from the persona list, the start cycle sends zero `register_persona`
commands, not one per participant. -/
theorem startCycle_missing_persona_counterexample :
    (["p1"] : List String).length = 1 ∧
    (startCycleCommands ["p1"] [] ConvStatus.idle "c1").countP
      (fun e => e.type == "register_persona") = 0 :=
  ⟨rfl, rfl⟩

/-! ## C8: createBranch -/

/-- C8: when the parent conversation exists and contains the message
`startFromMessageId` (at first index `i`), and `branchId` is a fresh
conversation id, `createBranch` creates a conversation with id `branchId`
whose message sequence is exactly the parent's prefix up to and including
that message (it is a prefix, and its last element carries the id),
whose participants equal the parent's, whose `parentId` field is the
parent's id, and which is registered both in the parent's branch map and
in the top-level conversation collection. -/
theorem createBranch_spec (s : ConversationState) (parentId branchId title : String)
    (startId now : Nat) (parent : Conversation) (i : Nat)
    (hp : s.conversations.find? (fun c => c.id == parentId) = some parent)
    (hi : findIndexP (fun m => m.id == startId) parent.messages = some i)
    (hfresh : ∀ c ∈ s.conversations, c.id ≠ branchId) :
    ∃ b parentNew,
      (createBranch s parentId branchId startId title now).conversations.find?
          (fun c => c.id == branchId) = some b ∧
      b.messages = parent.messages.take (i + 1) ∧
      b.messages ++ parent.messages.drop (i + 1) = parent.messages ∧
      (b.messages.getLast?).map Message.id = some startId ∧
      b.participants = parent.participants ∧
      b.parentId = some parentId ∧
      (createBranch s parentId branchId startId title now).conversations.find?
          (fun c => c.id == parentId) = some parentNew ∧
      (∃ bl, parentNew.branches = some bl ∧
        bl.find? (fun kv => kv.1 == branchId) = some (branchId, b)) := by
  have hparent_id : parent.id = parentId := by
    have := List.find?_some hp
    simpa [beq_iff_eq] using this
  have hne : parentId ≠ branchId := by
    intro h
    exact hfresh parent (List.mem_of_find?_eq_some hp) (h ▸ hparent_id)
  set b : Conversation := Conversation.mk branchId title now now parent.participants
    (parent.messages.take (i + 1)) none (some parentId) true with hb
  set F : Conversation → Conversation := fun pc =>
    pc.setBranches (some (upsertBranch branchId b (pc.branches.getD []))) with hF
  have hFpres : ∀ a : Conversation, ((F a).id == parentId) = (a.id == parentId) := by
    intro a
    rw [hF, Conversation.id_setBranches]
  have hconvs : (createBranch s parentId branchId startId title now).conversations =
      setFirstMatch (fun c => c.id == parentId) F s.conversations ++ [b] := by
    simp only [createBranch, hp, hi, hF, hb]
  refine ⟨b, F parent, ?_, rfl, List.take_append_drop (i + 1) parent.messages, ?_, rfl, rfl,
    ?_, ?_⟩
  · rw [hconvs, List.find?_append]
    have hnone : (setFirstMatch (fun c => c.id == parentId) F s.conversations).find?
        (fun c => c.id == branchId) = none := by
      rw [List.find?_eq_none]
      intro x hx
      rcases mem_setFirstMatch (fun c => c.id == parentId) F s.conversations x hx with
        h | ⟨y, hy, rfl⟩
      · simp [hfresh x h]
      · rw [hF, Conversation.id_setBranches]
        simp [hfresh y hy]
    rw [hnone, Option.none_or]
    simp [hb]
    rfl
  · rcases findIndexP_take (fun m => m.id == startId) parent.messages i hi with
      ⟨x, hx, hpx⟩
    have : b.messages = parent.messages.take i ++ [x] := by
      rw [hb]
      exact hx
    rw [this, List.getLast?_concat]
    have hxid : x.id = startId := by simpa [beq_iff_eq] using hpx
    simp [hxid]
  · rw [hconvs, List.find?_append, find?_setFirstMatch _ F hFpres, hp]
    rfl
  · refine ⟨upsertBranch branchId b (parent.branches.getD []), ?_, ?_⟩
    · rw [hF, Conversation.branches_setBranches]
    · exact upsertBranch_find? branchId b (parent.branches.getD [])

/-- Witness for `createBranch_spec`: branching `c1` (holding the single
message with id 1) at that message into the fresh id `b1`. -/
theorem createBranch_spec_witness :
    ∃ b parentNew,
      (createBranch exStateOneMsg "c1" "b1" 1 "Branch" 5).conversations.find?
          (fun c => c.id == "b1") = some b ∧
      b.messages = (mkConv "c1" [exMsg1]).messages.take (0 + 1) ∧
      b.messages ++ (mkConv "c1" [exMsg1]).messages.drop (0 + 1) =
        (mkConv "c1" [exMsg1]).messages ∧
      (b.messages.getLast?).map Message.id = some 1 ∧
      b.participants = (mkConv "c1" [exMsg1]).participants ∧
      b.parentId = some "c1" ∧
      (createBranch exStateOneMsg "c1" "b1" 1 "Branch" 5).conversations.find?
          (fun c => c.id == "c1") = some parentNew ∧
      (∃ bl, parentNew.branches = some bl ∧
        bl.find? (fun kv => kv.1 == "b1") = some ("b1", b)) :=
  createBranch_spec exStateOneMsg "c1" "b1" "Branch" 1 5 (mkConv "c1" [exMsg1]) 0
    rfl rfl (by decide)

/-! ## C9: id uniqueness and append order over addMessage sequences -/

/-- A missing conversation leaves `addMessage` a no-op. -/
theorem addMessage_of_any_eq_false (s : ConversationState) (p : AddMessagePayload)
    (n t : Nat) (hany : s.conversations.any (fun c => c.id == p.conversationId) = false) :
    addMessage s p n t = s := by
  simp [addMessage, hany]

/-- `addMessage` never changes the list of conversation ids. -/
theorem conversationIds_addMessage (s : ConversationState) (p : AddMessagePayload)
    (n t : Nat) : conversationIds (addMessage s p n t) = conversationIds s := by
  by_cases hany : s.conversations.any (fun c => c.id == p.conversationId) = true
  · have hmap := map_setFirstMatch (fun c => c.id == p.conversationId)
      (fun c => (c.setMessages (c.messages ++ [mkNewMessage p n t])).setUpdated t)
      (fun c => c.id)
      (fun a => id_after_append p n t a)
      s.conversations
    by_cases hu : p.senderType = SenderType.user
    · simp only [conversationIds, addMessage, hany, if_true, hu, if_pos]
      exact hmap
    · simp only [conversationIds, addMessage, hany, if_true, hu, if_false]
      exact hmap
  · simp only [Bool.not_eq_true] at hany
    rw [addMessage_of_any_eq_false s p n t hany]

/-- The conversation list produced by `addMessage` in its found branch. -/
theorem addMessage_conversations (s : ConversationState) (p : AddMessagePayload)
    (n t : Nat) (hany : s.conversations.any (fun c => c.id == p.conversationId) = true) :
    (addMessage s p n t).conversations =
      setFirstMatch (fun c => c.id == p.conversationId)
        (fun c => (c.setMessages (c.messages ++ [mkNewMessage p n t])).setUpdated t)
        s.conversations := by
  by_cases hu : p.senderType = SenderType.user
  · simp only [addMessage, hany, if_true, hu, if_pos]
  · simp only [addMessage, hany, if_true, hu, if_false]

/-- Appending to the targeted conversation. -/
theorem messagesOf_addMessage_same (s : ConversationState) (p : AddMessagePayload)
    (n t : Nat) (hany : s.conversations.any (fun c => c.id == p.conversationId) = true) :
    messagesOf (addMessage s p n t) p.conversationId =
      (messagesOf s p.conversationId).map (fun ms => ms ++ [mkNewMessage p n t]) := by
  rw [messagesOf, addMessage_conversations s p n t hany,
    find?_setFirstMatch (fun c => c.id == p.conversationId)
      (fun c => (c.setMessages (c.messages ++ [mkNewMessage p n t])).setUpdated t)
      (fun a => idbeq_after_append p n t p.conversationId a)]
  cases hf : s.conversations.find? (fun c => c.id == p.conversationId) with
  | none => simp [messagesOf, hf]
  | some c =>
      simp [messagesOf, hf, Conversation.messages_setUpdated,
        Conversation.messages_setMessages]

/-- Other conversations are untouched by `addMessage`. -/
theorem messagesOf_addMessage_ne (s : ConversationState) (p : AddMessagePayload)
    (n t : Nat) (cid : String) (hne : p.conversationId ≠ cid) :
    messagesOf (addMessage s p n t) cid = messagesOf s cid := by
  by_cases hany : s.conversations.any (fun c => c.id == p.conversationId) = true
  · rw [messagesOf, addMessage_conversations s p n t hany,
      find?_setFirstMatch_disjoint (fun c => c.id == p.conversationId)
        (fun c => c.id == cid)
        (fun c => (c.setMessages (c.messages ++ [mkNewMessage p n t])).setUpdated t)
        (fun a => idbeq_after_append p n t cid a)
        (fun a ha => by
          have haid : a.id = p.conversationId := by simpa [beq_iff_eq] using ha
          simp [haid, hne])]
    rfl
  · simp only [Bool.not_eq_true] at hany
    rw [addMessage_of_any_eq_false s p n t hany]

/-- `addMessage` keeps all message ids below the advanced counter. -/
theorem addMessage_id_bound (s : ConversationState) (p : AddMessagePayload)
    (n t : Nat) (hb : ∀ c ∈ s.conversations, ∀ m ∈ c.messages, m.id < n) :
    ∀ c ∈ (addMessage s p n t).conversations, ∀ m ∈ c.messages, m.id < n + 1 := by
  by_cases hany : s.conversations.any (fun c => c.id == p.conversationId) = true
  · rw [addMessage_conversations s p n t hany]
    intro c hc m hm
    rcases mem_setFirstMatch _ _ s.conversations c hc with h | ⟨y, hy, rfl⟩
    · exact Nat.lt_succ_of_lt (hb c h m hm)
    · rw [Conversation.messages_setUpdated, Conversation.messages_setMessages] at hm
      rcases List.mem_append.mp hm with h | h
      · exact Nat.lt_succ_of_lt (hb y hy m h)
      · rcases List.mem_singleton.mp h with rfl
        exact Nat.lt_succ_self n
  · simp only [Bool.not_eq_true] at hany
    rw [addMessage_of_any_eq_false s p n t hany]
    intro c hc m hm
    exact Nat.lt_succ_of_lt (hb c hc m hm)

/-- `addMessage` preserves per-conversation distinctness of message ids
when the counter dominates every stored id. -/
theorem addMessage_nodup (s : ConversationState) (p : AddMessagePayload)
    (n t : Nat) (hb : ∀ c ∈ s.conversations, ∀ m ∈ c.messages, m.id < n)
    (hn : ∀ c ∈ s.conversations, (c.messages.map Message.id).Nodup) :
    ∀ c ∈ (addMessage s p n t).conversations, (c.messages.map Message.id).Nodup := by
  by_cases hany : s.conversations.any (fun c => c.id == p.conversationId) = true
  · rw [addMessage_conversations s p n t hany]
    intro c hc
    rcases mem_setFirstMatch _ _ s.conversations c hc with h | ⟨y, hy, rfl⟩
    · exact hn c h
    · rw [Conversation.messages_setUpdated, Conversation.messages_setMessages,
        List.map_append, List.nodup_append]
      refine ⟨hn y hy, by simp [mkNewMessage], ?_⟩
      intro a ha hb2
      simp only [List.map_cons, List.map_nil, List.mem_singleton, mkNewMessage] at hb2
      rcases List.mem_map.mp ha with ⟨m, hm, rfl⟩
      exact absurd (hb2 ▸ hb y hy m hm) (Nat.lt_irrefl n)
  · simp only [Bool.not_eq_true] at hany
    rw [addMessage_of_any_eq_false s p n t hany]
    exact hn

/-- C9: over any sequence of `addMessage` calls with freshly generated
ids, the message ids within each conversation stay pairwise distinct,
and the stored message order of every conversation equals the prior
messages followed by the appended ones in call order (retrieval order
equals append order). -/
theorem addMessage_unique_ordered (calls : List AddCall) :
    ∀ (s : ConversationState) (n0 : Nat),
      (∀ c ∈ s.conversations, ∀ m ∈ c.messages, m.id < n0) →
      (∀ c ∈ s.conversations, (c.messages.map Message.id).Nodup) →
      (∀ c ∈ (runAdds s n0 calls).conversations, (c.messages.map Message.id).Nodup) ∧
      (∀ cid, messagesOf (runAdds s n0 calls) cid =
        (messagesOf s cid).map
          (fun ms => ms ++ expectedNew (conversationIds s) cid n0 calls)) := by
  induction calls with
  | nil =>
      intro s n0 hb hn
      refine ⟨hn, ?_⟩
      intro cid
      simp [runAdds, expectedNew]
  | cons a rest ih =>
      intro s n0 hb hn
      have hids : (conversationIds s).any (fun i => i == a.payload.conversationId) =
          s.conversations.any (fun c => c.id == a.payload.conversationId) := by
        rw [conversationIds, any_map_comp]
      by_cases hany : s.conversations.any (fun c => c.id == a.payload.conversationId) = true
      · have hb' := addMessage_id_bound s a.payload n0 a.now hb
        have hn' := addMessage_nodup s a.payload n0 a.now hb hn
        have hrec := ih (addMessage s a.payload n0 a.now) (n0 + 1) hb' hn'
        have hrun : runAdds s n0 (a :: rest) =
            runAdds (addMessage s a.payload n0 a.now) (n0 + 1) rest := by
          simp [runAdds, hany]
        refine ⟨by rw [hrun]; exact hrec.1, ?_⟩
        intro cid
        rw [hrun, hrec.2 cid, conversationIds_addMessage]
        by_cases hcid : a.payload.conversationId = cid
        · rw [← hcid, messagesOf_addMessage_same s a.payload n0 a.now hany]
          have hexp : expectedNew (conversationIds s) a.payload.conversationId n0 (a :: rest) =
              mkNewMessage a.payload n0 a.now ::
                expectedNew (conversationIds s) a.payload.conversationId (n0 + 1) rest := by
            simp [expectedNew, hids, hany]
          rw [hexp]
          cases hms : messagesOf s a.payload.conversationId with
          | none => rfl
          | some ms => simp
        · rw [messagesOf_addMessage_ne s a.payload n0 a.now cid hcid]
          have hexp : expectedNew (conversationIds s) cid n0 (a :: rest) =
              expectedNew (conversationIds s) cid (n0 + 1) rest := by
            have hne : (a.payload.conversationId == cid) = false := by
              simp [hcid]
            simp [expectedNew, hids, hany, hne]
          rw [hexp]
      · simp only [Bool.not_eq_true] at hany
        have hrec := ih s n0 hb hn
        have hrun : runAdds s n0 (a :: rest) = runAdds s n0 rest := by
          simp [runAdds, hany, addMessage_of_any_eq_false s a.payload n0 a.now hany]
        have hexp : ∀ cid, expectedNew (conversationIds s) cid n0 (a :: rest) =
            expectedNew (conversationIds s) cid n0 rest := by
          intro cid
          simp [expectedNew, hids, hany]
        refine ⟨by rw [hrun]; exact hrec.1, ?_⟩
        intro cid
        rw [hrun, hrec.2 cid, hexp]

/-- Witness for `addMessage_unique_ordered`: three calls (two to the
existing `c1`, one to the missing `zz`) starting from the store holding
the empty `c1`. -/
theorem addMessage_unique_ordered_witness :
    (∀ c ∈ (runAdds exStateNoMsg 0 exCalls).conversations,
      (c.messages.map Message.id).Nodup) ∧
    (∀ cid, messagesOf (runAdds exStateNoMsg 0 exCalls) cid =
      (messagesOf exStateNoMsg cid).map
        (fun ms => ms ++ expectedNew (conversationIds exStateNoMsg) cid 0 exCalls)) :=
  addMessage_unique_ordered exCalls exStateNoMsg 0 (by decide) (by decide)

end Orchestrator
